import Mathlib

/-!
Verification of the FastAPI CRUD service core: cache-aside item service,
security-header middleware, rate limiters (in-memory sliding log and
Redis fixed window), and JWT token issue/validate.  Each definition is a
shallow embedding of the corresponding Python function; theorems check the
specification's claims against these definitions.
-/

/-- Association-list lookup by string key (models Python dict / Redis GET). -/
def alistLookup {α : Type} (l : List (String × α)) (k : String) : Option α :=
  (l.find? (fun p => p.1 == k)).map (fun p => p.2)

/-- Association-list update: replaces any existing binding of `k` (models
dict assignment / Redis SETEX overwriting a key). -/
def alistSet {α : Type} (l : List (String × α)) (k : String) (v : α) : List (String × α) :=
  (k, v) :: l.filter (fun p => p.1 != k)

/-- Association-list removal of a key (models Redis DELETE). -/
def alistDelete {α : Type} (l : List (String × α)) (k : String) : List (String × α) :=
  l.filter (fun p => p.1 != k)

/-- Glob matching over character lists with the star wildcard (matching any
character sequence), the only metacharacter the service ever uses (Redis
KEYS semantics for the pattern `items:list:*`). -/
def globMatch : List Char → List Char → Bool
  | [], s => s.isEmpty
  | c :: ps, s =>
    if c == '*' then (List.range (s.length + 1)).any (fun k => globMatch ps (s.drop k))
    else match s with
      | [] => false
      | d :: ds => c == d && globMatch ps ds

/-- `app/models/item.py`: the Item row (id primary key, name, optional
description, price, quantity, created_at).  The float `price` column is
modelled over `Int`; none of the verified claims depends on float
arithmetic, only on which fields are read and written. -/
structure Item where
  id : Nat
  name : String
  description : Option String
  price : Int
  quantity : Nat
  created_at : Nat
deriving DecidableEq, Repr

/-- `app/schemas/item.py` `ItemUpdate` under `model_dump(exclude_unset=True)`:
each field is either absent from the payload (`none`) or present with a
value.  `description` is nullable, so a present `description` carries an
`Option String`. -/
structure ItemUpdate where
  name : Option String := none
  description : Option (Option String) := none
  price : Option Int := none
  quantity : Option Nat := none
deriving DecidableEq, Repr

/-- The `setattr` loop of `ItemService.update_item`: apply exactly the
fields present in the payload to the row. -/
def applyUpdate (it : Item) (u : ItemUpdate) : Item :=
  { it with
    name := u.name.getD it.name
    description := match u.description with
      | some d => d
      | none => it.description
    price := u.price.getD it.price
    quantity := u.quantity.getD it.quantity }

/-- `db.query(Item).filter(Item.id == item_id).first()`: the store is a row
list, first matching row wins. -/
def dbFirst (db : List Item) (item_id : Nat) : Option Item :=
  db.find? (fun it => it.id == item_id)

/-- Commit of the mutated ORM object: replace the first row with the given
id by its updated version. -/
def dbReplaceFirst : List Item → Nat → ItemUpdate → List Item
  | [], _, _ => []
  | it :: rest, item_id, u =>
    if it.id == item_id then applyUpdate it u :: rest
    else it :: dbReplaceFirst rest item_id u

/-- `db.delete(db_item); db.commit()`: remove the first row with the id. -/
def dbEraseFirst : List Item → Nat → List Item
  | [], _ => []
  | it :: rest, item_id =>
    if it.id == item_id then rest
    else it :: dbEraseFirst rest item_id

/-- A value stored in the cache: a serialized single-item snapshot or a
serialized list snapshot (`app/core/cache.py` stores JSON of either). -/
inductive CacheVal where
  | itemVal : Item → CacheVal
  | listVal : List Item → CacheVal
deriving DecidableEq, Repr

/-- Python truthiness of the deserialized cache value: an item dict always
has fields (truthy); a list is truthy iff non-empty. -/
def CacheVal.truthy : CacheVal → Bool
  | .itemVal _ => true
  | .listVal l => !l.isEmpty

/-- The Redis connection behind `CacheService`: its key space (value and
expire-seconds per key) plus a flag making every operation raise, which is
how backend unavailability enters the model. -/
structure CacheBackend where
  entries : List (String × (CacheVal × Nat))
  failing : Bool
deriving DecidableEq, Repr

/-- `CacheService.get`: `None` without a backend; exceptions are caught and
yield `None`; otherwise the deserialized stored value (JSON text of a stored
value is never the empty string, so the `if value:` test passes). -/
def CacheService.get (redis : Option CacheBackend) (key : String) : Option CacheVal :=
  match redis with
  | none => none
  | some b =>
    if b.failing then none
    else match alistLookup b.entries key with
      | some (v, _) => some v
      | none => none

/-- `CacheService.set`: `False` without a backend or on a raised exception,
otherwise SETEX the serialized value with the expiry and return `True`. -/
def CacheService.set (redis : Option CacheBackend) (key : String) (v : CacheVal)
    (expire_seconds : Nat) : Bool × Option CacheBackend :=
  match redis with
  | none => (false, none)
  | some b =>
    if b.failing then (false, some b)
    else (true, some { b with entries := alistSet b.entries key (v, expire_seconds) })

/-- `CacheService.delete`: `False` without a backend or on a raised
exception, otherwise delete the key and return `True`. -/
def CacheService.delete (redis : Option CacheBackend) (key : String) : Bool × Option CacheBackend :=
  match redis with
  | none => (false, none)
  | some b =>
    if b.failing then (false, some b)
    else (true, some { b with entries := alistDelete b.entries key })

/-- `CacheService.delete_pattern`: `False` without a backend or on a raised
exception, otherwise `KEYS pattern` followed by deleting every match. -/
def CacheService.delete_pattern (redis : Option CacheBackend) (pat : String) :
    Bool × Option CacheBackend :=
  match redis with
  | none => (false, none)
  | some b =>
    if b.failing then (false, some b)
    else (true, some { b with
      entries := b.entries.filter (fun e => !globMatch pat.toList e.1.toList) })

/-- Cache key `item:<id>`. -/
def itemKey (item_id : Nat) : String := "item:" ++ toString item_id

/-- Cache key `items:list:<skip>:<limit>`. -/
def listKey (skip limit : Nat) : String :=
  "items:list:" ++ toString skip ++ ":" ++ toString limit

/-- `ItemService.get_item` (`item_service.py` lines 43-62): try the cache
under `item:<id>` first; a truthy hit (a stored item snapshot) is returned
without touching the store; on a miss, query the store and, when a row is
found, cache its snapshot with a 600-second TTL. -/
def ItemService.get_item (redis : Option CacheBackend) (db : List Item) (item_id : Nat) :
    Option Item × Option CacheBackend :=
  match CacheService.get redis (itemKey item_id) with
  | some (.itemVal it) => (some it, redis)
  | _ =>
    match dbFirst db item_id with
    | some it => (some it, (CacheService.set redis (itemKey item_id) (.itemVal it) 600).2)
    | none => (none, redis)

/-- `ItemService.get_items` (`item_service.py` lines 19-41): try the cache
under `items:list:<skip>:<limit>`; the hit test is Python truthiness, so a
cached empty list falls through to the store; on the store path the query
result is cached with a 300-second TTL. -/
def ItemService.get_items (redis : Option CacheBackend) (db : List Item)
    (skip : Nat) (limit : Nat) : List Item × Option CacheBackend :=
  let cache_key := listKey skip limit
  let fromStore :=
    let items := (db.drop skip).take limit
    (items, (CacheService.set redis cache_key (.listVal items) 300).2)
  match CacheService.get redis cache_key with
  | some (.listVal l) => if l.isEmpty then fromStore else (l, redis)
  | _ => fromStore

/-- `ItemService.update_item` (`item_service.py` lines 64-80): look the row
up in the store; when found, apply exactly the payload's present fields,
commit, then delete the cache key `item:<id>` and pattern-delete
`items:list:*`; when absent, return the not-found outcome with no store or
cache mutation.  Result: (returned row, store after, cache after). -/
def ItemService.update_item (redis : Option CacheBackend) (db : List Item)
    (item_id : Nat) (u : ItemUpdate) : Option Item × List Item × Option CacheBackend :=
  match dbFirst db item_id with
  | none => (none, db, redis)
  | some it =>
    let db2 := dbReplaceFirst db item_id u
    let c1 := (CacheService.delete redis (itemKey item_id)).2
    let c2 := (CacheService.delete_pattern c1 "items:list:*").2
    (some (applyUpdate it u), db2, c2)

/-- `ItemService.delete_item` (`item_service.py` lines 82-94): when the row
exists, remove it, invalidate `item:<id>` and `items:list:*`, return True;
otherwise return False with nothing changed. -/
def ItemService.delete_item (redis : Option CacheBackend) (db : List Item)
    (item_id : Nat) : Bool × List Item × Option CacheBackend :=
  match dbFirst db item_id with
  | none => (false, db, redis)
  | some _ =>
    let db2 := dbEraseFirst db item_id
    let c1 := (CacheService.delete redis (itemKey item_id)).2
    let c2 := (CacheService.delete_pattern c1 "items:list:*").2
    (true, db2, c2)

/-- Outcome of a route handler: a payload, an `HTTPException` with status
code and detail string, or the framework's failure to serialize the
returned value against the route's `response_model` (surfaced as an
internal server error). -/
inductive ApiResult (α : Type) where
  | ok : α → ApiResult α
  | httpError : Nat → String → ApiResult α
  | serializationFailure : ApiResult α
deriving DecidableEq, Repr

/-- A coroutine object: what a call to an `async def` function returns when
made without `await` from a sync context.  The wrapped computation `run`
has not executed (so it has had no side effects), and the object itself is
truthy in Python. -/
structure Coroutine (α : Type) where
  run : α
deriving DecidableEq, Repr

/-- Python truthiness of a coroutine object: always truthy. -/
def Coroutine.truthy {α : Type} (_ : Coroutine α) : Bool := true

/-- `GET /items/{item_id}` handler (`endpoints/items.py` lines 31-41): the
sync handler calls the async `ItemService.get_item` without `await`, so
`item` is a coroutine object, never the service result.  `if not item:` is
always false (a coroutine is truthy), so the 404 branch is dead; the
coroutine is returned and fails `response_model=ItemResponse`
serialization.  The service body never runs: store and cache are
untouched. -/
def itemsRouter.get_item (redis : Option CacheBackend) (db : List Item) (item_id : Nat) :
    ApiResult Item × Option CacheBackend :=
  let item := Coroutine.mk (ItemService.get_item redis db item_id)
  if item.truthy = false then (.httpError 404 "Item not found", redis)
  else (.serializationFailure, redis)

/-- `PUT /items/{item_id}` handler (`endpoints/items.py` lines 43-54): the
unawaited `ItemService.update_item` coroutine is truthy, so the 404 branch
is dead, the coroutine fails response-model serialization, and — the
service body never running — no field is applied and no cache key is
invalidated. -/
def itemsRouter.update_item (redis : Option CacheBackend) (db : List Item)
    (item_id : Nat) (u : ItemUpdate) : ApiResult Item × List Item × Option CacheBackend :=
  let updated_item := Coroutine.mk (ItemService.update_item redis db item_id u)
  if updated_item.truthy = false then (.httpError 404 "Item not found", db, redis)
  else (.serializationFailure, db, redis)

/-- `DELETE /items/{item_id}` handler (`endpoints/items.py` lines 56-65):
the unawaited `ItemService.delete_item` coroutine is truthy, so the 404
branch is dead and the handler always answers the success message — while
the service body never runs, so no row is removed and no cache key is
invalidated. -/
def itemsRouter.delete_item (redis : Option CacheBackend) (db : List Item)
    (item_id : Nat) : ApiResult String × List Item × Option CacheBackend :=
  let deleted := Coroutine.mk (ItemService.delete_item redis db item_id)
  if deleted.truthy = false then (.httpError 404 "Item not found", db, redis)
  else (.ok "Item deleted successfully", db, redis)

/-- JWT claim set the service uses: optional subject and absolute expiry in
epoch seconds (`create_access_token` always writes `exp`). -/
structure JwtClaims where
  sub : Option String
  exp : Nat
deriving DecidableEq, Repr

/-- A bearer token as the verifier sees it: either a well-formed JWT whose
signature was produced with some secret, or a string that does not parse as
a JWT at all. -/
inductive Token where
  | signed : JwtClaims → String → Token
  | malformed : String → Token
deriving DecidableEq, Repr

/-- `settings.ACCESS_TOKEN_EXPIRE_MINUTES` default. -/
def ACCESS_TOKEN_EXPIRE_MINUTES : Nat := 30

/-- `create_access_token` (`core/security.py` lines 31-48): copy the data
(its `sub`), add `exp = now + expires_delta` (default from settings), and
sign with the configured secret.  `expires_delta` is in seconds. -/
def create_access_token (secret : String) (sub : Option String)
    (expires_delta : Option Nat) (now : Nat) : Token :=
  Token.signed { sub := sub, exp := now + expires_delta.getD (ACCESS_TOKEN_EXPIRE_MINUTES * 60) }
    secret

/-- `decode_token` (`core/security.py` lines 51-63): `jwt.decode` verifies
the signature against the configured secret and rejects tokens whose `exp`
lies in the past (python-jose raises when `exp < now`); every `JWTError` is
caught and, like a missing `sub` claim, yields `None`. -/
def decode_token (secret : String) (token : Token) (now : Nat) : Option String :=
  match token with
  | .malformed _ => none
  | .signed claims sigSecret =>
    if sigSecret != secret then none
    else if claims.exp < now then none
    else claims.sub

/-- `InMemoryRateLimiter` (`middleware/rate_limit.py` lines 24-47): per-key
sliding log of request timestamps.  Timestamps are integral seconds
(`time.time()` floats carry no claim-relevant fraction). -/
structure InMemoryRateLimiter where
  requests : Nat
  window : Int
  storage : List (String × List Int)
deriving DecidableEq, Repr

/-- The `while q and (now - q[0]) > self.window: q.popleft()` loop: drop
stale timestamps from the front until the first fresh one. -/
def dropOld (window : Int) (now : Int) : List Int → List Int
  | [] => []
  | t :: ts => if now - t > window then dropOld window now ts else t :: ts

/-- `InMemoryRateLimiter.is_allowed`: after dropping stale front entries,
reject when the quota is filled (reporting `window - (now - oldest)`),
otherwise append `now` and permit.  Returns ((allowed, retry_after),
limiter after the call). -/
def InMemoryRateLimiter.is_allowed (rl : InMemoryRateLimiter) (key : String) (now : Int) :
    (Bool × Int) × InMemoryRateLimiter :=
  let q := (alistLookup rl.storage key).getD []
  let q2 := dropOld rl.window now q
  if q2.length ≥ rl.requests then
    let retry_after : Int := match q2 with
      | t :: _ => rl.window - (now - t)
      | [] => rl.window
    ((false, retry_after), { rl with storage := alistSet rl.storage key q2 })
  else
    ((true, 0), { rl with storage := alistSet rl.storage key (q2 ++ [now]) })

/-- The Redis connection behind `RedisRateLimiter`: counters and TTLs per
key, plus one failure flag per operation kind so that a raise inside any of
INCR, EXPIRE, TTL can be modelled. -/
structure RedisBackend where
  counters : List (String × Nat)
  ttls : List (String × Int)
  failIncr : Bool
  failExpire : Bool
  failTtl : Bool
deriving DecidableEq, Repr

/-- Redis INCR: create-at-1 or increment; raises iff `failIncr`. -/
def redisIncr (b : RedisBackend) (key : String) : Except Unit (Nat × RedisBackend) :=
  if b.failIncr then .error ()
  else
    let c := (alistLookup b.counters key).getD 0 + 1
    .ok (c, { b with counters := alistSet b.counters key c })

/-- Redis EXPIRE: set the key's TTL; raises iff `failExpire`. -/
def redisExpire (b : RedisBackend) (key : String) (secs : Int) : Except Unit RedisBackend :=
  if b.failExpire then .error ()
  else .ok { b with ttls := alistSet b.ttls key secs }

/-- Redis TTL: remaining TTL, `-2` for a missing key; raises iff `failTtl`. -/
def redisTtl (b : RedisBackend) (key : String) : Except Unit Int :=
  if b.failTtl then .error ()
  else .ok ((alistLookup b.ttls key).getD (-2))

/-- `RedisRateLimiter.is_allowed` (`middleware/rate_limit.py` lines 61-84):
INCR the per-window key, EXPIRE it on the 1 transition, reject above the
quota with `retry_after` from TTL (the window length when TTL is
unreadable); any exception inside the try is caught, logged, and the call
fails open with `(True, 0)`.  Returns ((allowed, retry_after), backend
after, whether a backend failure was caught and logged). -/
def RedisRateLimiter.is_allowed (requests : Nat) (window : Nat) (b : RedisBackend)
    (key : String) (now : Nat) : (Bool × Int) × RedisBackend × Bool :=
  let redis_key := "rl:" ++ key ++ ":" ++ toString (now / window)
  match redisIncr b redis_key with
  | .error _ => ((true, 0), b, true)
  | .ok (current, b1) =>
    match (if current == 1 then redisExpire b1 redis_key (Int.ofNat window) else .ok b1) with
    | .error _ => ((true, 0), b1, true)
    | .ok b2 =>
      if current > requests then
        match redisTtl b2 redis_key with
        | .error _ => ((true, 0), b2, true)
        | .ok ttl =>
          ((false, if ttl > 0 then ttl else Int.ofNat window), b2, false)
      else ((true, 0), b2, false)

/-- The header table of `SecurityHeadersMiddleware` (`security_headers.py`
lines 25-33), in insertion order. -/
def security_headers : List (String × String) :=
  [("Strict-Transport-Security", "max-age=63072000; includeSubDomains; preload"),
   ("X-Frame-Options", "DENY"),
   ("X-Content-Type-Options", "nosniff"),
   ("Referrer-Policy", "no-referrer"),
   ("Permissions-Policy", "geolocation=()"),
   ("Content-Security-Policy", "default-src \x27self\x27; style-src \x27self\x27 \x27unsafe-inline\x27 https://cdn.jsdelivr.net; script-src \x27self\x27 \x27unsafe-inline\x27 https://cdn.jsdelivr.net; font-src \x27self\x27 https://fonts.gstatic.com; img-src \x27self\x27 data: https://cdn.jsdelivr.net https://fastapi.tiangolo.com; connect-src \x27self\x27 https://cdn.jsdelivr.net")]

/-- `k in dict(headers)`: some pair in the list has the key. -/
def headersContainKey (hs : List (String × String)) (k : String) : Bool :=
  hs.any (fun p => p.1 == k)

/-- The `send_wrapper` header rewrite of `SecurityHeadersMiddleware`
(`security_headers.py` lines 19-41): keep the response's headers and append
each security header whose key is not already present. -/
def SecurityHeadersMiddleware.send_wrapper (hs : List (String × String)) :
    List (String × String) :=
  hs ++ security_headers.filter (fun kv => !headersContainKey hs kv.1)

/-- An outgoing HTTP response (`http.response.start` message): status code
and header list. -/
structure HttpResponse where
  status : Nat
  headers : List (String × String)
deriving DecidableEq, Repr

/-- `RateLimitMiddleware.__call__` (`rate_limit.py` lines 120-146) with the
in-memory limiter, composed under `SecurityHeadersMiddleware` as `main.py`
lines 42-46 order them (security headers outermost, so they rewrite every
response, the 429 rejection included): when the limiter rejects, a 429
`Retry-After` response short-circuits; otherwise the handler's response
passes through; either way the header rewrite applies. -/
def appPipeline (rl : InMemoryRateLimiter) (client_ip : String) (now : Int)
    (handler : HttpResponse) : HttpResponse × InMemoryRateLimiter :=
  let r := rl.is_allowed client_ip now
  let resp :=
    if r.1.1 then handler
    else { status := 429, headers := [("Retry-After", toString r.1.2)] }
  ({ resp with headers := SecurityHeadersMiddleware.send_wrapper resp.headers }, r.2)

/-- A trailing star matches any remaining characters. -/
lemma globMatch_star_any (cs : List Char) : globMatch [ '*' ] cs = true := by
  have h : ( '*' == '*' ) = true := rfl
  simp only [globMatch, h, if_true, List.any_eq_true, List.mem_range]
  exact ⟨cs.length, Nat.lt_succ_self _, by simp⟩

/-- A non-star pattern character consumes one equal text character. -/
lemma globMatch_cons_ne (c : Char) (p cs : List Char) (hp : ¬ ('*' = c)) :
    globMatch (c :: p) (c :: cs) = globMatch p cs := by
  have hc : (c == '*') = false := beq_eq_false_iff_ne.mpr (fun h => hp h.symm)
  simp only [globMatch, hc, Bool.false_eq_true, if_false, beq_self_eq_true, Bool.true_and]

/-- A star-free literal prefix followed by a star matches that prefix
followed by anything. -/
lemma globMatch_append_star (p cs : List Char) (hp : '*' ∉ p) :
    globMatch (p ++ [ '*' ]) (p ++ cs) = true := by
  induction p with
  | nil => simpa using globMatch_star_any cs
  | cons c p ih =>
    simp only [List.mem_cons, not_or] at hp
    rw [List.cons_append, List.cons_append, globMatch_cons_ne c _ _ hp.1]
    exact ih hp.2

/-- Every list-view cache key matches the invalidation pattern. -/
lemma glob_matches_listKey (skip limit : Nat) :
    globMatch "items:list:*".toList (listKey skip limit).toList = true := by
  have h1 : "items:list:*".toList = "items:list:".toList ++ [ '*' ] := by decide
  have h2 : (listKey skip limit).toList
      = "items:list:".toList ++ ((toString skip ++ ":" ++ toString limit).toList) := by
    simp [listKey, String.toList, String.data_append, String.append_assoc]
  rw [h1, h2]
  exact globMatch_append_star _ _ (by decide)

/-- Looking up a key that every kept element fails to carry returns
nothing. -/
lemma alistLookup_filter_none {α : Type} (l : List (String × α)) (f : String × α → Bool)
    (k : String) (h : ∀ e : String × α, e.1 = k → f e = false) :
    alistLookup (l.filter f) k = none := by
  induction l with
  | nil => rfl
  | cons e l ih =>
    by_cases hf : f e = true
    · have hk : (e.1 == k) = false := by
        by_cases h0 : e.1 = k
        · exact absurd hf (by simp [h e h0])
        · simpa using h0
      rw [List.filter_cons_of_pos hf]
      simpa [alistLookup, List.find?, hk] using ih
    · rw [List.filter_cons_of_neg (by simpa using hf)]
      exact ih

/-- After `alistDelete k`, looking up `k` returns nothing. -/
lemma alistLookup_alistDelete {α : Type} (l : List (String × α)) (k : String) :
    alistLookup (alistDelete l k) k = none := by
  refine alistLookup_filter_none l _ k (fun e he => ?_)
  simp [he]

/-- After `alistSet k v`, looking up `k` returns `v`. -/
lemma alistLookup_alistSet {α : Type} (l : List (String × α)) (k : String) (v : α) :
    alistLookup (alistSet l k v) k = some v := by
  simp [alistLookup, alistSet, List.find?]

/-- `applyUpdate` never touches the immutable id. -/
lemma applyUpdate_id (it : Item) (u : ItemUpdate) : (applyUpdate it u).id = it.id := rfl

/-- `applyUpdate` never touches the immutable creation timestamp. -/
lemma applyUpdate_created_at (it : Item) (u : ItemUpdate) :
    (applyUpdate it u).created_at = it.created_at := rfl

/-- Replacing the row with one id leaves lookups of every other id
unchanged. -/
lemma dbFirst_replace_ne (db : List Item) (item_id j : Nat) (u : ItemUpdate)
    (h : j ≠ item_id) : dbFirst (dbReplaceFirst db item_id u) j = dbFirst db j := by
  induction db with
  | nil => rfl
  | cons it rest ih =>
    by_cases hid : it.id = item_id
    · have h1 : (it.id == item_id) = true := by simpa using hid
      have h2 : ((applyUpdate it u).id == j) = false := by
        simp [applyUpdate_id, hid, (Ne.symm h)]
      have h3 : (it.id == j) = false := by simp [hid, Ne.symm h]
      simp [dbReplaceFirst, dbFirst, List.find?, h1, h2, h3]
    · have h1 : (it.id == item_id) = false := by simpa using hid
      by_cases hj : it.id = j
      · have h2 : (it.id == j) = true := by simpa using hj
        simp [dbReplaceFirst, dbFirst, List.find?, h1, h2]
      · have h2 : (it.id == j) = false := by simpa using hj
        simpa [dbReplaceFirst, dbFirst, List.find?, h1, h2] using ih

/-- Replacing the found row makes the subsequent lookup return the updated
row. -/
lemma dbFirst_replace_eq (db : List Item) (item_id : Nat) (u : ItemUpdate) (it : Item)
    (h : dbFirst db item_id = some it) :
    dbFirst (dbReplaceFirst db item_id u) item_id = some (applyUpdate it u) := by
  induction db with
  | nil => simp [dbFirst] at h
  | cons hd rest ih =>
    by_cases hid : hd.id = item_id
    · have h1 : (hd.id == item_id) = true := by simpa using hid
      have h2 : ((applyUpdate hd u).id == item_id) = true := by
        simpa [applyUpdate_id] using hid
      simp only [dbFirst, List.find?, h1] at h
      simp only [dbReplaceFirst, h1, if_true, dbFirst, List.find?, h2]
      simpa using congrArg (fun x => applyUpdate x u) (Option.some.inj h)
    · have h1 : (hd.id == item_id) = false := by simpa using hid
      simp only [dbFirst, List.find?, h1] at h
      simp only [dbReplaceFirst, h1, Bool.false_eq_true, if_false, dbFirst, List.find?]
      exact ih h

/-- Filtering cannot make a lookup that missed start hitting. -/
lemma alistLookup_filter_of_none {α : Type} (l : List (String × α)) (g : String × α → Bool)
    (k : String) (h : alistLookup l k = none) : alistLookup (l.filter g) k = none := by
  induction l with
  | nil => rfl
  | cons e l ih =>
    have hk : (e.1 == k) = false := by
      by_cases h0 : (e.1 == k) = true
      · simp [alistLookup, List.find?, h0] at h
      · simpa using h0
    have hl : alistLookup l k = none := by
      simpa [alistLookup, List.find?, hk] using h
    by_cases hg : g e = true
    · rw [List.filter_cons_of_pos hg]
      simpa [alistLookup, List.find?, hk] using ih hl
    · rw [List.filter_cons_of_neg (by simpa using hg)]
      exact ih hl

/-- The front-dropping loop splits the log into a stale prefix and a kept
suffix whose head (when any) is fresh. -/
lemma dropOld_spec (window now : Int) (q : List Int) :
    ∃ stale, q = stale ++ dropOld window now q
      ∧ (∀ t ∈ stale, now - t > window)
      ∧ (∀ t ts, dropOld window now q = t :: ts → ¬ (now - t > window)) := by
  induction q with
  | nil => exact ⟨[], rfl, by simp, by simp [dropOld]⟩
  | cons t q ih =>
    by_cases h : now - t > window
    · obtain ⟨stale, he, hs, hh⟩ := ih
      refine ⟨t :: stale, ?_, ?_, ?_⟩
      · simpa [dropOld, h] using congrArg (fun l => t :: l) he
      · intro x hx
        rcases List.mem_cons.mp hx with hx | hx
        · exact hx ▸ h
        · exact hs x hx
      · intro x ts hx
        exact hh x ts (by simpa [dropOld, h] using hx)
    · refine ⟨[], by simp [dropOld, h], by simp, ?_⟩
      intro x ts hx
      simp only [dropOld, if_neg h] at hx
      exact (List.cons.inj hx).1 ▸ h

/-- A sample stored row used by concrete witnesses. -/
def itA : Item :=
  { id := 1, name := "widget", description := none, price := 5, quantity := 2, created_at := 100 }

/-- A sample working cache backend holding the row's snapshot and one list
page. -/
def cbA : CacheBackend :=
  { entries := [(itemKey 1, (.itemVal itA, 600)), (listKey 0 10, (.listVal [itA], 300))],
    failing := false }

/-- A sample partial payload setting only the quantity. -/
def upA : ItemUpdate := { quantity := some 7 }

/-- C1: `update(id, partial_payload)` on an existing row applies exactly the
payload's present fields (absent fields unchanged), commits the row so the
store reflects it and no other row changes, and then removes the cache key
`item:<id>` and every key matching `items:list:*`; on a missing row it
returns the not-found outcome with no store or cache mutation. -/
theorem C1_update_item_partial_fields_and_invalidation :
    (∀ redis db item_id u it, dbFirst db item_id = some it →
      (ItemService.update_item redis db item_id u).1 = some (applyUpdate it u)
      ∧ (applyUpdate it u).id = it.id
      ∧ (applyUpdate it u).created_at = it.created_at
      ∧ (applyUpdate it u).name = u.name.getD it.name
      ∧ (applyUpdate it u).description =
          (match u.description with | some d => d | none => it.description)
      ∧ (applyUpdate it u).price = u.price.getD it.price
      ∧ (applyUpdate it u).quantity = u.quantity.getD it.quantity
      ∧ dbFirst (ItemService.update_item redis db item_id u).2.1 item_id
          = some (applyUpdate it u)
      ∧ (∀ j, j ≠ item_id →
          dbFirst (ItemService.update_item redis db item_id u).2.1 j = dbFirst db j)
      ∧ (∀ b, redis = some b → b.failing = false →
          ∃ b2, (ItemService.update_item redis db item_id u).2.2 = some b2
            ∧ b2.failing = false
            ∧ alistLookup b2.entries (itemKey item_id) = none
            ∧ (∀ s l, alistLookup b2.entries (listKey s l) = none)
            ∧ (∀ e ∈ b2.entries, globMatch "items:list:*".toList e.1.toList = false)))
    ∧ (∀ redis db item_id u, dbFirst db item_id = none →
        ItemService.update_item redis db item_id u = (none, db, redis)) := by
  constructor
  · intro redis db item_id u it h
    have hu : ItemService.update_item redis db item_id u
        = (some (applyUpdate it u), dbReplaceFirst db item_id u,
           (CacheService.delete_pattern (CacheService.delete redis (itemKey item_id)).2
             "items:list:*").2) := by
      simp [ItemService.update_item, h]
    refine ⟨by rw [hu], rfl, rfl, rfl, rfl, rfl, rfl, ?_, ?_, ?_⟩
    · rw [hu]
      exact dbFirst_replace_eq db item_id u it h
    · intro j hj
      rw [hu]
      exact dbFirst_replace_ne db item_id j u hj
    · intro b hb hbf
      subst hb
      obtain ⟨ents, bf⟩ := b
      simp only at hbf
      subst hbf
      refine ⟨⟨(alistDelete ents (itemKey item_id)).filter
          (fun e => !globMatch "items:list:*".toList e.1.toList), false⟩, ?_, rfl, ?_, ?_, ?_⟩
      · rw [hu]
        simp [CacheService.delete, CacheService.delete_pattern]
      · exact alistLookup_filter_of_none _ _ _ (alistLookup_alistDelete _ _)
      · intro s l
        refine alistLookup_filter_none _ _ _ (fun e he => ?_)
        simp only [he, Bool.not_eq_false']
        simpa using glob_matches_listKey s l
      · intro e he
        have := (List.mem_filter.mp he).2
        simpa using this
  · intro redis db item_id u h
    simp [ItemService.update_item, h]

/-- C1 witness: the theorem applied at a concrete row, payload and cache. -/
theorem C1_witness :
    dbFirst [itA] 1 = some itA
    ∧ (ItemService.update_item (some cbA) [itA] 1 upA).1 = some (applyUpdate itA upA) :=
  ⟨by decide,
   (C1_update_item_partial_fields_and_invalidation.1 (some cbA) [itA] 1 upA itA (by decide)).1⟩

/-- C2: `get(id)` reads `item:<id>` first and serves a hit without querying
the store (the result does not depend on the store contents); on a miss
with a row found it caches the snapshot with a 600-second TTL, after which
a second call with no intervening mutation is served from the cache, again
independently of the store. -/
theorem C2_get_item_cache_aside :
    (∀ redis db item_id it,
      CacheService.get redis (itemKey item_id) = some (CacheVal.itemVal it) →
      ItemService.get_item redis db item_id = (some it, redis))
    ∧ (∀ b : CacheBackend, ∀ db item_id it, b.failing = false →
        CacheService.get (some b) (itemKey item_id) = none →
        dbFirst db item_id = some it →
        ∃ b2, ItemService.get_item (some b) db item_id = (some it, some b2)
          ∧ b2.failing = false
          ∧ alistLookup b2.entries (itemKey item_id) = some (CacheVal.itemVal it, 600)
          ∧ (∀ db2, ItemService.get_item (some b2) db2 item_id = (some it, some b2))) := by
  constructor
  · intro redis db item_id it h
    simp [ItemService.get_item, h]
  · intro b db item_id it hbf hmiss hdb
    obtain ⟨ents, bf⟩ := b
    simp only at hbf
    subst hbf
    refine ⟨⟨alistSet ents (itemKey item_id) (CacheVal.itemVal it, 600), false⟩, ?_, rfl, ?_, ?_⟩
    · simp [ItemService.get_item, hmiss, hdb, CacheService.set]
    · exact alistLookup_alistSet _ _ _
    · intro db2
      have hg : CacheService.get
          (some ⟨alistSet ents (itemKey item_id) (CacheVal.itemVal it, 600), false⟩)
          (itemKey item_id) = some (CacheVal.itemVal it) := by
        simp [CacheService.get, alistLookup_alistSet]
      simp [ItemService.get_item, hg]

/-- C2 witness: the miss-then-cache branch applied at a concrete row and an
empty working cache. -/
theorem C2_witness :
    CacheService.get (some ⟨[], false⟩) (itemKey 1) = none
    ∧ ∃ b2, ItemService.get_item (some ⟨[], false⟩) [itA] 1 = (some itA, some b2)
        ∧ b2.failing = false
        ∧ alistLookup b2.entries (itemKey 1) = some (CacheVal.itemVal itA, 600)
        ∧ (∀ db2, ItemService.get_item (some b2) db2 1 = (some itA, some b2)) :=
  ⟨by decide, C2_get_item_cache_aside.2 ⟨[], false⟩ [itA] 1 itA rfl (by decide) (by decide)⟩

/-- The limiter configured as in the concrete rate-limit scenario: quota 3,
window 60 seconds, no history. -/
def rl60 : InMemoryRateLimiter := { requests := 3, window := 60, storage := [] }

/-- C3: one `is_allowed` call drops stale timestamps from the front of the
client's log, rejects with `retry_after = window - (now - oldest kept)` when
the quota is filled, and otherwise appends `now` and permits; concretely,
with quota 3 and window 60, calls at 0, 10, 20, 30 give permit, permit,
permit, reject (retry 30), and a call at 61, after the window has elapsed,
permits again. -/
theorem C3_in_memory_rate_limiter :
    (∀ requests : Nat, ∀ window : Int, ∀ storage : List (String × List Int),
     ∀ key : String, ∀ now : Int,
      (∃ stale, (alistLookup storage key).getD []
            = stale ++ dropOld window now ((alistLookup storage key).getD [])
        ∧ (∀ t ∈ stale, now - t > window)
        ∧ (∀ t ts, dropOld window now ((alistLookup storage key).getD []) = t :: ts →
            ¬ (now - t > window)))
      ∧ (∀ t ts, dropOld window now ((alistLookup storage key).getD []) = t :: ts →
          (t :: ts).length ≥ requests →
          (InMemoryRateLimiter.is_allowed ⟨requests, window, storage⟩ key now).1
            = (false, window - (now - t))
          ∧ alistLookup
              (InMemoryRateLimiter.is_allowed ⟨requests, window, storage⟩ key now).2.storage key
            = some (t :: ts))
      ∧ ((dropOld window now ((alistLookup storage key).getD [])).length < requests →
          (InMemoryRateLimiter.is_allowed ⟨requests, window, storage⟩ key now).1 = (true, 0)
          ∧ alistLookup
              (InMemoryRateLimiter.is_allowed ⟨requests, window, storage⟩ key now).2.storage key
            = some (dropOld window now ((alistLookup storage key).getD []) ++ [now])))
    ∧ ((rl60.is_allowed "client" 0).1 = (true, 0)
      ∧ ((rl60.is_allowed "client" 0).2.is_allowed "client" 10).1 = (true, 0)
      ∧ (((rl60.is_allowed "client" 0).2.is_allowed "client" 10).2.is_allowed
          "client" 20).1 = (true, 0)
      ∧ ((((rl60.is_allowed "client" 0).2.is_allowed "client" 10).2.is_allowed
          "client" 20).2.is_allowed "client" 30).1 = (false, 30)
      ∧ (((((rl60.is_allowed "client" 0).2.is_allowed "client" 10).2.is_allowed
          "client" 20).2.is_allowed "client" 30).2.is_allowed "client" 61).1 = (true, 0)) := by
  constructor
  · intro requests window storage key now
    refine ⟨dropOld_spec window now _, ?_, ?_⟩
    · intro t ts hq hlen
      have hlen2 : requests ≤ ts.length + 1 := by simpa using hlen
      constructor
      · simp [InMemoryRateLimiter.is_allowed, hq, hlen2]
      · simp [InMemoryRateLimiter.is_allowed, hq, hlen2, alistLookup_alistSet]
    · intro hlen
      have hlen2 : ¬ ((dropOld window now ((alistLookup storage key).getD [])).length ≥ requests) :=
        Nat.not_le.mpr hlen
      constructor
      · simp [InMemoryRateLimiter.is_allowed, hlen2]
      · simp [InMemoryRateLimiter.is_allowed, hlen2, alistLookup_alistSet]
  · refine ⟨by decide, by decide, by decide, by decide, by decide⟩

/-- C3 witness: the reject branch of the general statement applied at a
one-entry log with quota 1. -/
theorem C3_witness :
    dropOld 60 30 ((alistLookup [("k", [(0 : Int)])] "k").getD []) = 0 :: []
    ∧ (InMemoryRateLimiter.is_allowed ⟨1, 60, [("k", [(0 : Int)])]⟩ "k" 30).1
        = (false, 60 - (30 - 0)) :=
  ⟨by decide,
   (((C3_in_memory_rate_limiter.1 1 60 [("k", [(0 : Int)])] "k" 30).2.1 0 []
     (by decide) (by decide)).1)⟩

/-- C4: the shared (Redis-backed) limiter fails open — whenever a backend
operation raises during `is_allowed` (the third component records that the
exception branch logged a failure), the call returns permitted with
retry_after 0; a raising INCR in particular always lands there; and no
rejection ever comes out of a call that hit a backend failure. -/
theorem C4_redis_limiter_fails_open :
    ∀ requests window : Nat, ∀ b : RedisBackend, ∀ key : String, ∀ now : Nat,
      ((RedisRateLimiter.is_allowed requests window b key now).2.2 = true →
        (RedisRateLimiter.is_allowed requests window b key now).1 = (true, 0))
      ∧ (b.failIncr = true →
          (RedisRateLimiter.is_allowed requests window b key now).1 = (true, 0)
          ∧ (RedisRateLimiter.is_allowed requests window b key now).2.2 = true)
      ∧ ((RedisRateLimiter.is_allowed requests window b key now).1.1 = false →
          (RedisRateLimiter.is_allowed requests window b key now).2.2 = false) := by
  intro requests window b key now
  obtain ⟨cnts, tls, fI, fE, fT⟩ := b
  by_cases h1 :
      (alistLookup cnts ("rl:" ++ key ++ ":" ++ toString (now / window))).getD 0 = 0 <;>
    by_cases h2 :
        requests < (alistLookup cnts ("rl:" ++ key ++ ":" ++ toString (now / window))).getD 0 + 1 <;>
      by_cases h3 : requests = 0 <;>
        rcases fI with _ | _ <;> rcases fE with _ | _ <;> rcases fT with _ | _ <;>
          simp [RedisRateLimiter.is_allowed, redisIncr, redisExpire, redisTtl, h1, h2, h3]

/-- C4 witness: a backend whose INCR raises, at concrete inputs. -/
theorem C4_witness :
    (RedisBackend.mk [] [] true false false).failIncr = true
    ∧ (RedisRateLimiter.is_allowed 3 60 (RedisBackend.mk [] [] true false false) "c" 100).1
        = (true, 0)
    ∧ (RedisRateLimiter.is_allowed 3 60 (RedisBackend.mk [] [] true false false) "c" 100).2.2
        = true := by
  have h := (C4_redis_limiter_fails_open 3 60 (RedisBackend.mk [] [] true false false)
    "c" 100).2.1 rfl
  exact ⟨rfl, h.1, h.2⟩

/-- C5: validating a token issued by `create_access_token` before its expiry
instant returns the original subject, and any well-formed token whose
expiry has passed validates to the invalid outcome whatever secret signed
it. -/
theorem C5_token_roundtrip_and_expiry :
    (∀ secret sub : String, ∀ ttl now_issue now_check : Nat,
      now_check < now_issue + ttl →
      decode_token secret (create_access_token secret (some sub) (some ttl) now_issue) now_check
        = some sub)
    ∧ (∀ secret : String, ∀ claims : JwtClaims, ∀ sigSecret : String, ∀ now : Nat,
        claims.exp < now →
        decode_token secret (Token.signed claims sigSecret) now = none) := by
  constructor
  · intro secret sub ttl now_issue now_check h
    have hexp : ¬ (now_issue + ttl < now_check) := by omega
    simp [decode_token, create_access_token, hexp]
  · intro secret claims sigSecret now h
    by_cases hs : sigSecret = secret
    · simp [decode_token, hs, h]
    · simp [decode_token, hs]

/-- C5 witness: issue at time 1000 with a 60-second ttl, validate at 1030;
and an expired token at concrete times. -/
theorem C5_witness :
    ((1030 : Nat) < 1000 + 60
      ∧ decode_token "s" (create_access_token "s" (some "alice") (some 60) 1000) 1030
          = some "alice")
    ∧ ((5 : Nat) < 9
      ∧ decode_token "s" (Token.signed (JwtClaims.mk (some "alice") 5) "s") 9 = none) :=
  ⟨⟨by decide, C5_token_roundtrip_and_expiry.1 "s" "alice" 60 1000 1030 (by decide)⟩,
   ⟨by decide, C5_token_roundtrip_and_expiry.2 "s" (JwtClaims.mk (some "alice") 5) "s" 9
     (by decide)⟩⟩

/-- C6: every failure mode of `decode_token` — wrong signing secret,
malformed token, expired token, and a well-signed unexpired token with no
`sub` claim — produces one and the same invalid outcome, `None`. -/
theorem C6_validate_collapses_failures :
    ∀ secret secret2 raw sub : String, ∀ claims : JwtClaims, ∀ e now : Nat,
      (secret2 ≠ secret → decode_token secret (Token.signed claims secret2) now = none)
      ∧ decode_token secret (Token.malformed raw) now = none
      ∧ (e < now → decode_token secret (Token.signed (JwtClaims.mk (some sub) e) secret) now
          = none)
      ∧ (now ≤ e → decode_token secret (Token.signed (JwtClaims.mk none e) secret) now
          = none) := by
  intro secret secret2 raw sub claims e now
  refine ⟨fun h => by simp [decode_token, h], rfl, fun h => ?_, fun h => ?_⟩
  · simp [decode_token, h]
  · have h2 : ¬ (e < now) := by omega
    simp [decode_token, h2]

/-- C6 witness: the four failure modes at concrete tokens. -/
theorem C6_witness :
    decode_token "s" (Token.signed (JwtClaims.mk (some "alice") 99) "other") 5 = none
    ∧ decode_token "s" (Token.malformed "garbage") 5 = none
    ∧ decode_token "s" (Token.signed (JwtClaims.mk (some "alice") 3) "s") 5 = none
    ∧ decode_token "s" (Token.signed (JwtClaims.mk none 99) "s") 5 = none := by
  have h := C6_validate_collapses_failures "s" "other" "garbage" "alice"
    (JwtClaims.mk (some "alice") 99) 3 5
  have h2 := C6_validate_collapses_failures "s" "other" "garbage" "alice"
    (JwtClaims.mk none 99) 99 5
  exact ⟨h.1 (by decide), h.2.1, h.2.2.1 (by decide), h2.2.2.2 (by decide)⟩

/-- C7: every cache operation is advisory — with no backend configured,
`get` misses and the mutating operations report a no-op `False`; with a
backend raising on every call, the exception is swallowed and the same
degraded results come back with the backend state untouched.  All four
operations are total functions of the model: no error propagates. -/
theorem C7_cache_operations_advisory :
    ∀ key pat : String, ∀ v : CacheVal, ∀ exp : Nat, ∀ b : CacheBackend,
      (CacheService.get none key = none
        ∧ CacheService.set none key v exp = (false, none)
        ∧ CacheService.delete none key = (false, none)
        ∧ CacheService.delete_pattern none pat = (false, none))
      ∧ (CacheService.get (some { b with failing := true }) key = none
        ∧ CacheService.set (some { b with failing := true }) key v exp
            = (false, some { b with failing := true })
        ∧ CacheService.delete (some { b with failing := true }) key
            = (false, some { b with failing := true })
        ∧ CacheService.delete_pattern (some { b with failing := true }) pat
            = (false, some { b with failing := true })) := by
  intro key pat v exp b
  refine ⟨⟨rfl, rfl, rfl, rfl⟩, ⟨?_, ?_, ?_, ?_⟩⟩ <;>
    simp [CacheService.get, CacheService.set, CacheService.delete, CacheService.delete_pattern]

/-- C8: the handlers contradict their own `raise HTTPException(404, "Item
not found")` lines — the sync handlers call the async service methods
without `await` (`items.py` lines 38, 51, 63), the coroutine object is
truthy, and every 404 branch is dead.  At a missing id, GET and PUT answer
a serialization failure instead of 404 and DELETE answers the success
message; no input at all produces the 404 the claim (and the code's clear
intent) state.  DELETE with an existing row also demonstrates the slip's
reach: it reports success while the row survives and a working cache keeps
its entries. -/
theorem C8_handlers_never_return_404 :
    (dbFirst [] 2 = none
      ∧ (itemsRouter.get_item none [] 2).1 = ApiResult.serializationFailure
      ∧ (itemsRouter.update_item none [] 2 upA).1 = ApiResult.serializationFailure
      ∧ (itemsRouter.delete_item none [] 2).1 = ApiResult.ok "Item deleted successfully")
    ∧ (itemsRouter.delete_item (some cbA) [itA] 1
        = (ApiResult.ok "Item deleted successfully", [itA], some cbA)
      ∧ itemsRouter.update_item (some cbA) [itA] 1 upA
        = (ApiResult.serializationFailure, [itA], some cbA))
    ∧ (∀ redis : Option CacheBackend, ∀ db : List Item, ∀ item_id : Nat, ∀ u : ItemUpdate,
        (itemsRouter.get_item redis db item_id).1 ≠ ApiResult.httpError 404 "Item not found"
        ∧ (itemsRouter.update_item redis db item_id u).1
            ≠ ApiResult.httpError 404 "Item not found"
        ∧ (itemsRouter.delete_item redis db item_id).1
            ≠ ApiResult.httpError 404 "Item not found"
        ∧ (itemsRouter.get_item redis db item_id).2 = redis
        ∧ (itemsRouter.update_item redis db item_id u).2 = (db, redis)
        ∧ (itemsRouter.delete_item redis db item_id).2 = (db, redis)) := by
  refine ⟨⟨rfl, rfl, rfl, rfl⟩, ⟨rfl, rfl⟩, ?_⟩
  intro redis db item_id u
  exact ⟨by simp [itemsRouter.get_item, Coroutine.truthy],
    by simp [itemsRouter.update_item, Coroutine.truthy],
    by simp [itemsRouter.delete_item, Coroutine.truthy], rfl, rfl, rfl⟩

/-- The header rewrite always leaves every security header present. -/
lemma send_wrapper_covers (hs : List (String × String)) (k v : String)
    (hmem : (k, v) ∈ security_headers) :
    headersContainKey (SecurityHeadersMiddleware.send_wrapper hs) k = true := by
  by_cases hk : (hs.any fun p => p.1 == k) = true
  · simp only [SecurityHeadersMiddleware.send_wrapper, headersContainKey, List.any_append,
      Bool.or_eq_true]
    exact Or.inl hk
  · have hk2 : (hs.any fun p => p.1 == k) = false := Bool.eq_false_iff.mpr hk
    simp only [SecurityHeadersMiddleware.send_wrapper, headersContainKey, List.any_append,
      Bool.or_eq_true, List.any_eq_true]
    exact Or.inr ⟨(k, v), List.mem_filter.mpr ⟨hmem, by simp [headersContainKey, hk2]⟩,
      by simp⟩

/-- Once a key is already present, the rewrite adds no pair with that key. -/
lemma send_wrapper_no_override (hs : List (String × String)) (k : String)
    (hk : headersContainKey hs k = true) :
    (SecurityHeadersMiddleware.send_wrapper hs).filter (fun p => p.1 == k)
      = hs.filter (fun p => p.1 == k) := by
  have haux : ∀ l : List (String × String),
      (l.filter (fun kv => !headersContainKey hs kv.1)).filter (fun p => p.1 == k) = [] := by
    intro l
    induction l with
    | nil => rfl
    | cons e l ih =>
      by_cases he : headersContainKey hs e.1 = true
      · rw [List.filter_cons_of_neg (by simp [he])]
        exact ih
      · rw [List.filter_cons_of_pos (by simp [he])]
        have hek : (e.1 == k) = false := by
          by_cases h0 : e.1 = k
          · exact absurd (h0 ▸ hk) he
          · simpa using h0
        rw [List.filter_cons_of_neg (by simp [hek])]
        exact ih
  rw [SecurityHeadersMiddleware.send_wrapper, List.filter_append, haux, List.append_nil]

/-- C9: after the header middleware, every one of the six security headers
is present on every response, the handler's own header pairs survive
untouched, a header name already present gains no second pair (no
override), and the full pipeline — the rate-limit 429 rejection included —
carries all six headers. -/
theorem C9_security_headers_every_response :
    ∀ hs : List (String × String), ∀ k v : String,
      ((k, v) ∈ security_headers →
        headersContainKey (SecurityHeadersMiddleware.send_wrapper hs) k = true)
      ∧ (∀ p ∈ hs, p ∈ SecurityHeadersMiddleware.send_wrapper hs)
      ∧ (headersContainKey hs k = true →
          (SecurityHeadersMiddleware.send_wrapper hs).filter (fun p => p.1 == k)
            = hs.filter (fun p => p.1 == k))
      ∧ (∀ rl : InMemoryRateLimiter, ∀ ip : String, ∀ now : Int, ∀ handler : HttpResponse,
          (k, v) ∈ security_headers →
          headersContainKey (appPipeline rl ip now handler).1.headers k = true) := by
  intro hs k v
  refine ⟨send_wrapper_covers hs k v, ?_, send_wrapper_no_override hs k, ?_⟩
  · intro p hp
    exact List.mem_append_left _ hp
  · intro rl ip now handler hmem
    simp only [appPipeline]
    exact send_wrapper_covers _ _ _ hmem

/-- C9 witness: a handler that already set `X-Frame-Options` keeps its value
and the rewrite still reports the header present. -/
theorem C9_witness :
    ("X-Frame-Options", "DENY") ∈ security_headers
    ∧ headersContainKey
        (SecurityHeadersMiddleware.send_wrapper [("X-Custom", "1")]) "X-Frame-Options" = true
    ∧ (SecurityHeadersMiddleware.send_wrapper [("X-Frame-Options", "SAMEORIGIN")]).filter
        (fun p => p.1 == "X-Frame-Options") = [("X-Frame-Options", "SAMEORIGIN")] := by
  have h1 := (C9_security_headers_every_response [("X-Custom", "1")] "X-Frame-Options" "DENY").1
  have h2 := (C9_security_headers_every_response [("X-Frame-Options", "SAMEORIGIN")]
    "X-Frame-Options" "DENY").2.2.1
  exact ⟨by decide, h1 (by decide), by rw [h2 (by decide)]; decide⟩

/-- C10: when the store page is empty, the empty list is cached under
`items:list:<skip>:<limit>` with a 300-second TTL, yet the hit test
requires a non-empty cached value, so every later call with that cached
empty list takes the store path again (re-querying and re-caching); only a
non-empty cached list is ever served from the cache. -/
theorem C10_cached_empty_list_is_miss :
    (∀ b : CacheBackend, ∀ db : List Item, ∀ skip limit : Nat, b.failing = false →
      CacheService.get (some b) (listKey skip limit) = none →
      (db.drop skip).take limit = [] →
      ∃ b2, ItemService.get_items (some b) db skip limit = ([], some b2)
        ∧ b2.failing = false
        ∧ alistLookup b2.entries (listKey skip limit) = some (CacheVal.listVal [], 300)
        ∧ CacheService.get (some b2) (listKey skip limit) = some (CacheVal.listVal []))
    ∧ (∀ redis db, ∀ skip limit : Nat,
        CacheService.get redis (listKey skip limit) = some (CacheVal.listVal []) →
        ItemService.get_items redis db skip limit
          = ((db.drop skip).take limit,
             (CacheService.set redis (listKey skip limit)
               (CacheVal.listVal ((db.drop skip).take limit)) 300).2))
    ∧ (∀ redis db, ∀ skip limit : Nat, ∀ l : List Item,
        CacheService.get redis (listKey skip limit) = some (CacheVal.listVal l) → l ≠ [] →
        ItemService.get_items redis db skip limit = (l, redis)) := by
  refine ⟨?_, ?_, ?_⟩
  · intro b db skip limit hbf hmiss hempty
    obtain ⟨ents, bf⟩ := b
    simp only at hbf
    subst hbf
    refine ⟨⟨alistSet ents (listKey skip limit) (CacheVal.listVal [], 300), false⟩, ?_, rfl,
      alistLookup_alistSet _ _ _, ?_⟩
    · simp [ItemService.get_items, hmiss, hempty, CacheService.set]
    · simp [CacheService.get, alistLookup_alistSet]
  · intro redis db skip limit h
    simp [ItemService.get_items, h]
  · intro redis db skip limit l h hl
    have hne : l.isEmpty = false := by simpa using hl
    simp [ItemService.get_items, h, hne]

/-- C10 witness: a cached empty page is ignored and the store is queried
again at concrete inputs. -/
theorem C10_witness :
    CacheService.get (some ⟨[(listKey 0 10, (CacheVal.listVal [], 300))], false⟩) (listKey 0 10)
      = some (CacheVal.listVal [])
    ∧ ItemService.get_items (some ⟨[(listKey 0 10, (CacheVal.listVal [], 300))], false⟩)
        [itA] 0 10
      = (([itA].drop 0).take 10,
         (CacheService.set (some ⟨[(listKey 0 10, (CacheVal.listVal [], 300))], false⟩)
           (listKey 0 10) (CacheVal.listVal (([itA].drop 0).take 10)) 300).2) :=
  ⟨by decide,
   C10_cached_empty_list_is_miss.2.1
     (some ⟨[(listKey 0 10, (CacheVal.listVal [], 300))], false⟩) [itA] 0 10 (by decide)⟩
